import Mathlib

/-
Verification of the LangoSpark backend content-generation pipeline
(src/controllers/ai-lessons.controllers.ts) against its design document.

The controller is embedded shallowly: JSON values are an inductive type,
JSON.parse of the JavaScript runtime is an abstract parameter
(a function String to Option Json), and the stateful Express handlers
become pure functions from their inputs (request body fields, database
lookup results, the outcome of the model call) to a record of the
response and the persistence side effects they perform.
-/

namespace LS

/-- JSON values as produced by a JSON parse in JavaScript. Numbers are
modelled as rationals: JSON numeric literals denote decimal fractions and
none of the code performs arithmetic that could lose precision. -/
inductive Json where
  | null : Json
  | bool : Bool → Json
  | num : Rat → Json
  | str : String → Json
  | arr : List Json → Json
  | obj : List (String × Json) → Json

/-- Reading a named property of a JavaScript object, modelled as first
match in the field list. -/
def lookupField : List (String × Json) → String → Option Json
  | [], _ => none
  | (k, v) :: rest, key => if k = key then some v else lookupField rest key

/-- Property assignment on a JavaScript object: overwrite in place when the
key exists, append otherwise. -/
def setFieldFn : List (String × Json) → String → Json → List (String × Json)
  | [], key, v => [(key, v)]
  | (k, w) :: rest, key, v =>
      if k = key then (key, v) :: rest else (k, w) :: setFieldFn rest key v

/-- Property read on an arbitrary JSON value: only objects have named
fields. -/
def jsonField (j : Json) (key : String) : Option Json :=
  match j with
  | .obj fs => lookupField fs key
  | _ => none

/-! String helpers mirroring the JavaScript string operations used by
safeJsonParse. They are written over character lists so that every proof
and witness reduces inside the kernel. -/

/-- Drop leading whitespace characters (the JavaScript \s class, restricted
to the ASCII whitespace the code ever meets). -/
def dropWhitespace : List Char → List Char
  | [] => []
  | c :: cs => if c.isWhitespace then dropWhitespace cs else c :: cs

/-- Both-ends trim, the model of String.prototype.trim. -/
def trimChars (l : List Char) : List Char :=
  ((dropWhitespace ((dropWhitespace l).reverse)).reverse)

/-- Model of the JavaScript trim on strings. -/
def jsTrim (s : String) : String :=
  String.mk (trimChars s.data)

/-- Case-insensitive literal match at the head of a character list,
returning the remainder on success. -/
def stripLeadCI : List Char → List Char → Option (List Char)
  | [], rest => some rest
  | _ :: _, [] => none
  | p :: ps, c :: cs => if p.toLower = c.toLower then stripLeadCI ps cs else none

/-- One application of a replace of an anchored leading pattern
(the fence marker followed by optional whitespace) by the empty string. -/
def replaceLeadFence (tag : String) (l : List Char) : List Char :=
  match stripLeadCI tag.data l with
  | some rest => dropWhitespace rest
  | none => l

/-- One application of a replace of a trailing fence marker by the empty
string: the pattern is anchored at the very end of the string. -/
def stripTrailFence (l : List Char) : List Char :=
  if l.length ≥ 3 ∧ l.drop (l.length - 3) = "```".data then
    l.take (l.length - 3)
  else l

/-- The cleaning step of safeJsonParse: strip a leading "```json" fence,
then a leading bare fence, then a trailing fence, then trim. -/
def cleanFences (text : String) : String :=
  jsTrim (String.mk (stripTrailFence (replaceLeadFence "```" (replaceLeadFence "```json" text.data))))

/-- The cleaned text that strategies 2, 3 and 4 operate on. -/
def cleanedText (raw : String) : String :=
  cleanFences (jsTrim raw)

/-- Index of the first occurrence of a character. -/
def firstIdx (c : Char) (l : List Char) : Option Nat :=
  l.findIdx? (· = c)

/-- Index of the last occurrence of a character. -/
def lastIdx (c : Char) (l : List Char) : Option Nat :=
  match l.reverse.findIdx? (· = c) with
  | some i => some (l.length - 1 - i)
  | none => none

/-- The greedy regex match from an opening character through everything up
to the closing character: it matches exactly when the first opener sits
strictly before the last closer, and the match is that whole span. -/
def spanMatch (openc closec : Char) (s : String) : Option String :=
  let l := s.data
  match firstIdx openc l, lastIdx closec l with
  | some i, some j => if i < j then some (String.mk ((l.drop i).take (j - i + 1))) else none
  | _, _ => none

/-- Strategy 3 span: first opening brace through last closing brace. -/
def objSpan (s : String) : Option String := spanMatch '{' '}' s

/-- Strategy 4 span: first opening bracket through last closing bracket. -/
def arrSpan (s : String) : Option String := spanMatch '[' ']' s

/-- The message of the error thrown when every strategy is exhausted. -/
def geminiErrMsg : String := "Gemini did not return valid JSON"

/-- The tail of safeJsonParse: the array-span strategy followed by the
final throw. -/
def arrStep (parse : String → Option Json) (cleaned : String) : Except String Json :=
  match arrSpan cleaned with
  | some sub =>
    match parse sub with
    | some v => .ok v
    | none => .error geminiErrMsg
  | none => .error geminiErrMsg

/-- Embedding of safeJsonParse. The JSON.parse primitive of the runtime is
the abstract parameter parse; a parse exception is modelled as none, so
the try/catch chains of the source become matches that fall through. -/
def safeJsonParse (parse : String → Option Json) (raw : String) : Except String Json :=
  match parse (jsTrim raw) with
  | some v => .ok v
  | none =>
    match parse (cleanedText raw) with
    | some v => .ok v
    | none =>
      match objSpan (cleanedText raw) with
      | some sub =>
        match parse sub with
        | some v => .ok v
        | none => arrStep parse (cleanedText raw)
      | none => arrStep parse (cleanedText raw)

/-- The extraction strategies exactly as the design document lists them,
in its order: direct parse of the trimmed text, parse after fence
stripping, parse of the brace span, parse of the bracket span. -/
def specStrategies (parse : String → Option Json) (raw : String) : List (Option Json) :=
  [ parse (jsTrim raw),
    parse (cleanedText raw),
    (objSpan (cleanedText raw)).bind parse,
    (arrSpan (cleanedText raw)).bind parse ]

/-- First successful strategy result, if any. -/
def firstSome : List (Option Json) → Option Json
  | [] => none
  | some v :: _ => some v
  | none :: rest => firstSome rest

/-! The model call. callGeminiJSON first checks the credential, then
performs the network request, then runs safeJsonParse on the raw text.
The three failure classes of the design document are the constructors of
CallError. -/

/-- The ways callGeminiJSON can fail: the eager credential check, a
network or upstream failure while generating, or exhaustion of every
extraction strategy. -/
inductive CallError where
  | missingApiKey : CallError
  | upstream : String → CallError
  | notValidJson : CallError

/-- Embedding of callGeminiJSON: credential check, then the network
round trip (abstracted as an Except value), then extraction. -/
def callGeminiJSON (apiKeyPresent : Bool) (network : Except String String)
    (parse : String → Option Json) : Except CallError Json :=
  if apiKeyPresent = false then .error .missingApiKey
  else
    match network with
    | .error m => .error (.upstream m)
    | .ok raw =>
      match safeJsonParse parse raw with
      | .ok v => .ok v
      | .error _ => .error .notValidJson

/-! The lesson pipeline (generateLesson). The handler is a pure function
of the request fields, the user attached by the middleware, the language
lookup result, and the outcome of the model call; it returns the HTTP
response together with the trace of persistence operations it performs,
in order. -/

/-- A row of the Language table, as used by the handlers. -/
structure LanguageRec where
  id : String
  name : String
  code : String

/-- Persistence side effects of generateLesson, in execution order. -/
inductive LEvent where
  | persistLesson : Json → LEvent
  | cascadeQuiz : Bool → LEvent
  | persistProgress : String → LEvent

/-- The HTTP response of generateLesson, reduced to the parts the claims
talk about. -/
structure LessonResponse where
  status : Nat
  success : Bool
  content : Option Json

/-- A run of generateLesson: response plus the ordered side effect trace. -/
structure LessonRun where
  response : LessonResponse
  events : List LEvent

/-- The hard coded content used when the model call or extraction fails
for a lesson request. -/
def lessonFallbackContent : Json :=
  .obj [ ("vocabulary", .arr []),
         ("grammar", .str "Lesson generated but JSON formatting failed. Please retry."),
         ("examples", .arr []),
         ("exercises", .arr []),
         ("culturalNotes", .str "") ]

/-- The lesson content the handler persists: the extracted document
verbatim on success, the fallback on any model call failure. -/
def lessonContentStored (r : Except CallError Json) : Json :=
  match r with
  | .ok v => v
  | .error _ => lessonFallbackContent

/-- Embedding of the generateLesson handler. The catch around the model
call swallows every CallError, so the fallback content flows into
persistence and a 200 response; only the input validations short circuit.
The boolean cascadeOk records whether the cascaded quiz generation
succeeded, which the handler logs and ignores. -/
def generateLesson (languageId level : String) (userId : Option String)
    (language : Option LanguageRec) (modelResult : Except CallError Json)
    (cascadeOk : Bool) : LessonRun :=
  if languageId = "" ∨ level = "" then ⟨⟨400, false, none⟩, []⟩
  else
    match userId with
    | none => ⟨⟨401, false, none⟩, []⟩
    | some uid =>
      match language with
      | none => ⟨⟨404, false, none⟩, []⟩
      | some _ =>
        let content := lessonContentStored modelResult
        ⟨⟨200, true, some content⟩,
         [.persistLesson content, .cascadeQuiz cascadeOk, .persistProgress uid]⟩

/-- Ordering property: every cascaded quiz generation event is preceded by
a lesson persistence event. -/
def cascadeAfterPersist (evs : List LEvent) : Prop :=
  ∀ i b, evs.get? i = some (.cascadeQuiz b) →
    ∃ j c, j < i ∧ evs.get? j = some (.persistLesson c)

/-! The quiz pipeline (generateQuiz and generateQuizInternal). -/

/-- A row of the Quiz table. -/
structure QuizRec where
  id : String
  lessonId : String
  questions : Json

/-- A row of the Lesson table together with its included quizzes, as the
handlers fetch it. The content column is nullable. -/
structure LessonRec where
  id : String
  title : String
  description : String
  level : String
  languageId : String
  content : Option Json
  quizzes : List QuizRec

/-- The Array.isArray coercion the handlers apply to stored questions
before answering. -/
def coerceQuestions (q : Json) : List Json :=
  match q with
  | .arr xs => xs
  | _ => []

/-- The question document generateQuizInternal stores: the extracted
value verbatim on success, the empty array on any model call failure. -/
def quizQuestionsStored (r : Except CallError Json) : Json :=
  match r with
  | .ok v => v
  | .error _ => .arr []

/-- The quiz payload of a generateQuiz response. -/
structure QuizPayload where
  id : String
  lessonId : String
  questions : List Json

/-- A run of the generateQuiz handler: response status and payload, plus
whether the model pipeline was entered and which quiz row was created. -/
structure QuizRun where
  status : Nat
  success : Bool
  quiz : Option QuizPayload
  modelInvoked : Bool
  createdQuiz : Option QuizRec

/-- Embedding of the generateQuiz handler. When the lesson already owns at
least one quiz, the first stored quiz is answered directly; otherwise
generateQuizInternal runs the model pipeline and creates a row whose id is
assigned by the database (the parameter newQuizId). -/
def generateQuiz (lessonId : String) (lesson : Option LessonRec)
    (newQuizId : String)
    (modelResult : Except CallError Json) : QuizRun :=
  if lessonId = "" then ⟨400, false, none, false, none⟩
  else
    match lesson with
    | none => ⟨404, false, none, false, none⟩
    | some l =>
      match l.quizzes with
      | q :: _ =>
        ⟨200, true, some ⟨q.id, q.lessonId, coerceQuestions q.questions⟩, false, none⟩
      | [] =>
        let stored := quizQuestionsStored modelResult
        ⟨200, true, some ⟨newQuizId, lessonId, coerceQuestions stored⟩,
          true, some ⟨newQuizId, lessonId, stored⟩⟩

/-- The validity condition the design document states for a quiz question:
exactly 4 options and a numeric correct answer index between 0 and 3. -/
def specValidQuestion (q : Json) : Bool :=
  match jsonField q "options", jsonField q "correctAnswer" with
  | some (.arr os), some (.num a) => os.length = 4 && decide (0 ≤ a) && decide (a ≤ 3)
  | _, _ => false

/-! The pronunciation pipeline (getPronunciationFeedback). After a
successful extraction the handler repairs the four fields of the feedback
object in place, one conditional assignment per field, keeping every other
field; on any model call failure it builds the hard coded fallback from
the target text. -/

/-- Repair of the accuracy field: replaced by 0.7 unless it is a number
inside the unit interval. -/
def fixAccuracy (fs : List (String × Json)) : List (String × Json) :=
  match lookupField fs "accuracy" with
  | some (.num a) =>
      if a < 0 ∨ 1 < a then setFieldFn fs "accuracy" (.num (7/10)) else fs
  | _ => setFieldFn fs "accuracy" (.num (7/10))

/-- Repair of the feedback field: replaced by a generic encouragement
unless it is a string. -/
def fixFeedback (fs : List (String × Json)) : List (String × Json) :=
  match lookupField fs "feedback" with
  | some (.str _) => fs
  | _ => setFieldFn fs "feedback" (.str "Good attempt—keep practicing!")

/-- Repair of the suggestions field: replaced by the empty array unless it
is an array. -/
def fixSuggestions (fs : List (String × Json)) : List (String × Json) :=
  match lookupField fs "suggestions" with
  | some (.arr _) => fs
  | _ => setFieldFn fs "suggestions" (.arr [])

/-- Repair of the phonemes field: replaced by the empty array unless it is
an array. -/
def fixPhonemes (fs : List (String × Json)) : List (String × Json) :=
  match lookupField fs "phonemes" with
  | some (.arr _) => fs
  | _ => setFieldFn fs "phonemes" (.arr [])

/-- The four in-place repairs, in source order. -/
def validatePronFields (fs : List (String × Json)) : List (String × Json) :=
  fixPhonemes (fixSuggestions (fixFeedback (fixAccuracy fs)))

/-- The first word of the target text in the JavaScript sense: the result
of split on a single space at index 0, with the whole text as the fallback
when that is empty. -/
def firstWordOr (t : String) : String :=
  let w := String.mk (t.data.takeWhile (fun c => c ≠ ' '))
  if w = "" then t else w

/-- The hard coded pronunciation fallback document built from the target
text. -/
def pronFallback (targetText : String) : Json :=
  .obj [ ("accuracy", .num (7/10)),
         ("feedback", .str ("We received your pronunciation attempt for \"" ++ targetText ++ "\". Here are general tips to improve.")),
         ("suggestions", .arr [
            .str "Speak slowly and clearly, then speed up gradually",
            .str "Repeat the phrase 3 times focusing on vowel sounds",
            .str "Record again in a quiet room with mic close to you" ]),
         ("phonemes", .arr [
            .obj [ ("sound", .str (firstWordOr targetText)),
                   ("accuracy", .num (7/10)),
                   ("feedback", .str "Focus on clear articulation.") ] ]) ]

/-- The feedback value the handler ends up holding. An extracted object is
repaired field by field. An extracted array accepts the assignments as
expando properties, which JSON serialization then drops, so the array
itself is what the response carries. Reading or assigning a property on
null or a primitive throws inside the try, landing in the catch, so those
cases take the fallback, as does every model call failure. -/
def pronFeedbackResult (targetText : String) (r : Except CallError Json) : Json :=
  match r with
  | .ok (.obj fs) => .obj (validatePronFields fs)
  | .ok (.arr xs) => .arr xs
  | .ok _ => pronFallback targetText
  | .error _ => pronFallback targetText

/-- The accuracy the handler reads back from the feedback value when
persisting the row: the repaired field for an object, the assigned 0.7
expando for an array, 0.7 from the fallback otherwise. The default arm of
the inner match is dead: the repair always installs a numeric accuracy. -/
def pronAccuracy (_targetText : String) (r : Except CallError Json) : Rat :=
  match r with
  | .ok (.obj fs) =>
    match lookupField (validatePronFields fs) "accuracy" with
    | some (.num a) => a
    | _ => 7/10
  | _ => 7/10

/-- Whether the extracted accuracy is absent, non numeric, or outside the
unit interval (the condition under which the claims require 0.7). -/
def extractedAccuracyBad (r : Except CallError Json) : Bool :=
  match r with
  | .ok (.obj fs) =>
    match lookupField fs "accuracy" with
    | some (.num a) => decide (a < 0) || decide (1 < a)
    | _ => true
  | _ => true

/-- The JSON body of a successful pronunciation response. -/
def pronResponse (targetText : String) (r : Except CallError Json) : Json :=
  .obj [("success", .bool true), ("feedback", pronFeedbackResult targetText r)]

/-- The sound field of the first phoneme entry of a feedback document. -/
def firstPhonemeSound (doc : Json) : Option String :=
  match jsonField doc "phonemes" with
  | some (.arr (p :: _)) =>
    match jsonField p "sound" with
    | some (.str s) => some s
    | _ => none
  | _ => none

/-- The user record the middleware attaches to the request. -/
structure AuthedUser where
  id : String
  email : String

/-- A run of the getPronunciationFeedback handler body (after the
middleware): response parts plus the persisted row fields. -/
structure PronRun where
  status : Nat
  success : Bool
  feedback : Option Json
  persistedUserId : Option String
  persistedSentence : Option String
  persistedAccuracy : Option Rat

/-- Embedding of the getPronunciationFeedback handler body: required field
checks, language lookup, then the pipeline with its internal fallback. The
attached user only flows into the persisted row. -/
def getPronunciationFeedback (user : AuthedUser)
    (languageId audioData targetText level : String)
    (language : Option LanguageRec) (modelResult : Except CallError Json) : PronRun :=
  if languageId = "" ∨ audioData = "" ∨ targetText = "" ∨ level = "" then
    ⟨400, false, none, none, none, none⟩
  else
    match language with
    | none => ⟨404, false, none, none, none, none⟩
    | some _ =>
      ⟨200, true, some (pronFeedbackResult targetText modelResult),
        some user.id, some targetText, some (pronAccuracy targetText modelResult)⟩

/-! The authentication middleware and route composition. Every ai-lessons
route is mounted behind authenticateToken, so a request without a bearer
token never reaches a handler. -/

/-- Embedding of authenticateToken: missing token gives 401, a token the
JWT library rejects gives 403, an unknown user id gives 401, otherwise the
user is attached. Token verification and the user lookup are abstract
parameters. -/
def authenticateToken (token : Option String)
    (verify : String → Option String)
    (findUser : String → Option AuthedUser) : Except (Nat × String) AuthedUser :=
  match token with
  | none => .error (401, "Access token is required")
  | some t =>
    match verify t with
    | none => .error (403, "Invalid or expired token")
    | some uid =>
      match findUser uid with
      | none => .error (401, "User not found")
      | some u => .ok u

/-- Result of a request to a protected route: either the middleware
rejected it, or the handler ran with the attached user. -/
inductive EndpointResult (α : Type) where
  | rejected : Nat → String → EndpointResult α
  | handled : α → EndpointResult α

/-- A protected route: the middleware runs first and the handler only runs
with the user it attached. -/
def runProtected {α : Type} (token : Option String)
    (verify : String → Option String)
    (findUser : String → Option AuthedUser)
    (handler : AuthedUser → α) : EndpointResult α :=
  match authenticateToken token verify findUser with
  | .error (s, m) => .rejected s m
  | .ok u => .handled (handler u)

/-! The lesson read endpoint (getLessonContent). -/

/-- The schema shaped empty content substituted when the stored lesson
content is missing or falsy. -/
def emptyLessonContent : Json :=
  .obj [ ("vocabulary", .arr []),
         ("grammar", .str ""),
         ("examples", .arr []),
         ("exercises", .arr []),
         ("culturalNotes", .str "") ]

/-- JavaScript falsiness of a JSON value, as tested by the logical-or
default in the handler. -/
def jsFalsy : Json → Bool
  | .null => true
  | .bool b => !b
  | .num a => decide (a = 0)
  | .str s => s = ""
  | _ => false

/-- The lesson payload of a getLessonContent response. The quiz component
is a plain record, never optional: the handler always builds one. -/
structure LessonPayload where
  id : String
  title : String
  description : String
  level : String
  languageId : String
  content : Json
  quiz : QuizPayload

/-- A run of the getLessonContent handler body. -/
structure LessonGetRun where
  status : Nat
  success : Bool
  payload : Option LessonPayload

/-- Embedding of the getLessonContent handler: 404 when the lesson is
unknown, otherwise a payload whose quiz defaults to an empty id and an
empty question list and whose content defaults to the empty schema shape
when the stored column is null or falsy. -/
def getLessonContent (lesson : Option LessonRec) : LessonGetRun :=
  match lesson with
  | none => ⟨404, false, none⟩
  | some l =>
    let q? := l.quizzes.head?
    let quizQuestions :=
      match q? with
      | some q => coerceQuestions q.questions
      | none => []
    ⟨200, true, some {
      id := l.id, title := l.title, description := l.description,
      level := l.level, languageId := l.languageId,
      content :=
        match l.content with
        | some c => if jsFalsy c then emptyLessonContent else c
        | none => emptyLessonContent,
      quiz := { id := (q?.map QuizRec.id).getD "",
                lessonId := l.id,
                questions := quizQuestions } }⟩

/-! Helper lemmas about field lookup and assignment. -/

theorem lookupField_setFieldFn_self (fs : List (String × Json)) (k : String) (v : Json) :
    lookupField (setFieldFn fs k v) k = some v := by
  induction fs with
  | nil => simp [setFieldFn, lookupField]
  | cons p rest ih =>
    obtain ⟨k', w⟩ := p
    by_cases h : k' = k
    · simp [setFieldFn, lookupField, h]
    · simp [setFieldFn, lookupField, h, ih]

theorem lookupField_setFieldFn_ne (fs : List (String × Json)) (k key : String) (v : Json)
    (h : key ≠ k) : lookupField (setFieldFn fs k v) key = lookupField fs key := by
  induction fs with
  | nil =>
    simp only [setFieldFn, lookupField]
    rw [if_neg (fun hh => h hh.symm)]
  | cons p rest ih =>
    obtain ⟨k', w⟩ := p
    simp only [setFieldFn]
    by_cases hk : k' = k
    · rw [if_pos hk]
      simp only [lookupField]
      rw [if_neg (fun hh => h hh.symm), if_neg (fun hh => h (hk.symm.trans hh).symm)]
    · rw [if_neg hk]
      simp only [lookupField]
      by_cases hq : k' = key
      · rw [if_pos hq, if_pos hq]
      · rw [if_neg hq, if_neg hq]
        exact ih

theorem lookupField_fixFeedback_acc (fs : List (String × Json)) :
    lookupField (fixFeedback fs) "accuracy" = lookupField fs "accuracy" := by
  unfold fixFeedback
  cases h : lookupField fs "feedback" with
  | none => exact lookupField_setFieldFn_ne fs "feedback" "accuracy" _ (by decide)
  | some v =>
    cases v with
    | str s => rfl
    | null => exact lookupField_setFieldFn_ne fs "feedback" "accuracy" _ (by decide)
    | bool b => exact lookupField_setFieldFn_ne fs "feedback" "accuracy" _ (by decide)
    | num a => exact lookupField_setFieldFn_ne fs "feedback" "accuracy" _ (by decide)
    | arr xs => exact lookupField_setFieldFn_ne fs "feedback" "accuracy" _ (by decide)
    | obj o => exact lookupField_setFieldFn_ne fs "feedback" "accuracy" _ (by decide)

theorem lookupField_fixSuggestions_acc (fs : List (String × Json)) :
    lookupField (fixSuggestions fs) "accuracy" = lookupField fs "accuracy" := by
  unfold fixSuggestions
  cases h : lookupField fs "suggestions" with
  | none => exact lookupField_setFieldFn_ne fs "suggestions" "accuracy" _ (by decide)
  | some v =>
    cases v with
    | arr xs => rfl
    | null => exact lookupField_setFieldFn_ne fs "suggestions" "accuracy" _ (by decide)
    | bool b => exact lookupField_setFieldFn_ne fs "suggestions" "accuracy" _ (by decide)
    | num a => exact lookupField_setFieldFn_ne fs "suggestions" "accuracy" _ (by decide)
    | str s => exact lookupField_setFieldFn_ne fs "suggestions" "accuracy" _ (by decide)
    | obj o => exact lookupField_setFieldFn_ne fs "suggestions" "accuracy" _ (by decide)

theorem lookupField_fixPhonemes_acc (fs : List (String × Json)) :
    lookupField (fixPhonemes fs) "accuracy" = lookupField fs "accuracy" := by
  unfold fixPhonemes
  cases h : lookupField fs "phonemes" with
  | none => exact lookupField_setFieldFn_ne fs "phonemes" "accuracy" _ (by decide)
  | some v =>
    cases v with
    | arr xs => rfl
    | null => exact lookupField_setFieldFn_ne fs "phonemes" "accuracy" _ (by decide)
    | bool b => exact lookupField_setFieldFn_ne fs "phonemes" "accuracy" _ (by decide)
    | num a => exact lookupField_setFieldFn_ne fs "phonemes" "accuracy" _ (by decide)
    | str s => exact lookupField_setFieldFn_ne fs "phonemes" "accuracy" _ (by decide)
    | obj o => exact lookupField_setFieldFn_ne fs "phonemes" "accuracy" _ (by decide)

/-- After the four repairs, the accuracy field holds a number in the unit
interval, equal to 0.7 whenever the incoming accuracy was absent, non
numeric, or out of range. -/
theorem validatePron_accuracy (fs : List (String × Json)) :
    ∃ a : Rat, lookupField (validatePronFields fs) "accuracy" = some (.num a)
      ∧ 0 ≤ a ∧ a ≤ 1
      ∧ ((match lookupField fs "accuracy" with
          | some (.num b) => decide (b < 0) || decide (1 < b)
          | _ => true) = true → a = 7/10) := by
  have hstep : lookupField (validatePronFields fs) "accuracy"
      = lookupField (fixAccuracy fs) "accuracy" := by
    unfold validatePronFields
    rw [lookupField_fixPhonemes_acc, lookupField_fixSuggestions_acc,
        lookupField_fixFeedback_acc]
  rw [hstep]
  unfold fixAccuracy
  cases h : lookupField fs "accuracy" with
  | none =>
    refine ⟨7/10, lookupField_setFieldFn_self fs "accuracy" _, by norm_num, by norm_num, ?_⟩
    intro _; rfl
  | some v =>
    cases v with
    | num a =>
      dsimp only
      by_cases hr : a < 0 ∨ 1 < a
      · rw [if_pos hr]
        refine ⟨7/10, lookupField_setFieldFn_self fs "accuracy" _, by norm_num, by norm_num, ?_⟩
        intro _; rfl
      · rw [if_neg hr]
        push_neg at hr
        refine ⟨a, h, hr.1, hr.2, ?_⟩
        intro hbad
        simp only [Bool.or_eq_true, decide_eq_true_eq] at hbad
        exact absurd hbad (by push_neg; exact hr)
    | null =>
      refine ⟨7/10, lookupField_setFieldFn_self fs "accuracy" _, by norm_num, by norm_num, ?_⟩
      intro _; rfl
    | bool b =>
      refine ⟨7/10, lookupField_setFieldFn_self fs "accuracy" _, by norm_num, by norm_num, ?_⟩
      intro _; rfl
    | str s =>
      refine ⟨7/10, lookupField_setFieldFn_self fs "accuracy" _, by norm_num, by norm_num, ?_⟩
      intro _; rfl
    | arr xs =>
      refine ⟨7/10, lookupField_setFieldFn_self fs "accuracy" _, by norm_num, by norm_num, ?_⟩
      intro _; rfl
    | obj o =>
      refine ⟨7/10, lookupField_setFieldFn_self fs "accuracy" _, by norm_num, by norm_num, ?_⟩
      intro _; rfl

/-! The claim theorems. -/

/-- Claim C1: for every raw text input and every behavior of the JSON
parse primitive, extraction applies the four strategies in the fixed
order, returns the value of the first strategy that succeeds, raises the
extraction error exactly when all four fail, and is total, so no
intermediate parse failure escapes. -/
theorem extract_strategies_first_success (parse : String → Option Json) (raw : String) :
    (safeJsonParse parse raw =
      match firstSome (specStrategies parse raw) with
      | some v => Except.ok v
      | none => Except.error geminiErrMsg) ∧
    (safeJsonParse parse raw = Except.error geminiErrMsg ↔
      ∀ o ∈ specStrategies parse raw, o = none) := by
  have hmain : safeJsonParse parse raw =
      match firstSome (specStrategies parse raw) with
      | some v => Except.ok v
      | none => Except.error geminiErrMsg := by
    cases h1 : parse (jsTrim raw) with
    | some v => simp [safeJsonParse, specStrategies, firstSome, h1]
    | none =>
      cases h2 : parse (cleanedText raw) with
      | some v => simp [safeJsonParse, specStrategies, firstSome, h1, h2]
      | none =>
        cases h3 : objSpan (cleanedText raw) with
        | some sub =>
          cases h5 : parse sub with
          | some v => simp [safeJsonParse, specStrategies, firstSome, h1, h2, h3, h5]
          | none =>
            cases h4 : arrSpan (cleanedText raw) with
            | some sub2 =>
              cases h6 : parse sub2 with
              | some v =>
                simp [safeJsonParse, arrStep, specStrategies, firstSome, h1, h2, h3, h4, h5, h6]
              | none =>
                simp [safeJsonParse, arrStep, specStrategies, firstSome, h1, h2, h3, h4, h5, h6]
            | none => simp [safeJsonParse, arrStep, specStrategies, firstSome, h1, h2, h3, h4, h5]
        | none =>
          cases h4 : arrSpan (cleanedText raw) with
          | some sub2 =>
            cases h6 : parse sub2 with
            | some v => simp [safeJsonParse, arrStep, specStrategies, firstSome, h1, h2, h3, h4, h6]
            | none => simp [safeJsonParse, arrStep, specStrategies, firstSome, h1, h2, h3, h4, h6]
          | none => simp [safeJsonParse, arrStep, specStrategies, firstSome, h1, h2, h3, h4]
  refine ⟨hmain, ?_⟩
  rw [hmain]
  cases hfs : firstSome (specStrategies parse raw) with
  | some v =>
    simp only [hfs]
    constructor
    · intro h; cases h
    · intro hall
      exfalso
      have hnone : firstSome (specStrategies parse raw) = none := by
        have hgen : ∀ l : List (Option Json), (∀ o ∈ l, o = none) → firstSome l = none := by
          intro l hl
          induction l with
          | nil => rfl
          | cons x xs ih =>
            have hx := hl x (by simp)
            subst hx
            simp [firstSome]
            exact ih (fun o ho => hl o (by simp [ho]))
        exact hgen _ hall
      rw [hnone] at hfs
      cases hfs
  | none =>
    simp only [hfs]
    constructor
    · intro _
      intro o ho
      by_contra hne
      have hex : ∃ v, o = some v := by
        cases o with
        | none => exact absurd rfl hne
        | some v => exact ⟨v, rfl⟩
      obtain ⟨v, rfl⟩ := hex
      have hns : firstSome (specStrategies parse raw) ≠ none := by
        have hgen : ∀ l : List (Option Json), some v ∈ l → firstSome l ≠ none := by
          intro l hv
          induction l with
          | nil => cases hv
          | cons x xs ih =>
            cases x with
            | some w => simp [firstSome]
            | none =>
              simp [firstSome]
              rcases List.mem_cons.mp hv with h | h
              · cases h
              · exact ih h
        exact hgen _ ho
      exact hns hfs
    · intro _; trivial

/-- Claim C2 counterexample: a lesson request whose model invocation fails
with a network timeout still answers 200 with success true, persists the
fallback lesson content, and runs the cascade quiz step, because the catch
around the model call swallows every failure class. -/
theorem lesson_upstream_error_not_surfaced_cx :
    (generateLesson "lang1" "BEGINNER" (some "user1") (some ⟨"lang1", "Spanish", "es"⟩)
        (.error (.upstream "network timeout")) true).response.status = 200 ∧
    (generateLesson "lang1" "BEGINNER" (some "user1") (some ⟨"lang1", "Spanish", "es"⟩)
        (.error (.upstream "network timeout")) true).response.success = true ∧
    (generateLesson "lang1" "BEGINNER" (some "user1") (some ⟨"lang1", "Spanish", "es"⟩)
        (.error (.upstream "network timeout")) true).events
      = [.persistLesson lessonFallbackContent, .cascadeQuiz true, .persistProgress "user1"] := by
  exact ⟨rfl, rfl, rfl⟩

/-- Claim C2 amended: when the model invocation fails for a valid lesson
request, whether from a missing credential or an upstream failure, the
handler substitutes the fallback lesson content, persists a lesson with
that content, still runs the cascade quiz step, and answers 200 with
success true; the error is never surfaced to the caller. -/
theorem lesson_model_failure_uses_fallback (languageId level uid : String)
    (lang : LanguageRec) (e : CallError) (cok : Bool)
    (hL : languageId ≠ "") (hlev : level ≠ "") :
    (generateLesson languageId level (some uid) (some lang) (.error e) cok).response
        = ⟨200, true, some lessonFallbackContent⟩ ∧
    (generateLesson languageId level (some uid) (some lang) (.error e) cok).events
        = [.persistLesson lessonFallbackContent, .cascadeQuiz cok, .persistProgress uid] := by
  have hcond : ¬(languageId = "" ∨ level = "") := by
    rintro (h | h)
    · exact hL h
    · exact hlev h
  unfold generateLesson
  rw [if_neg hcond]
  exact ⟨rfl, rfl⟩

/-- Claim C2 amended, witness at a concrete input. -/
theorem lesson_model_failure_uses_fallback_w :
    (generateLesson "lang1" "BEGINNER" (some "user1") (some ⟨"lang1", "Spanish", "es"⟩)
        (.error .missingApiKey) false).response = ⟨200, true, some lessonFallbackContent⟩ :=
  (lesson_model_failure_uses_fallback "lang1" "BEGINNER" "user1"
    ⟨"lang1", "Spanish", "es"⟩ .missingApiKey false (by decide) (by decide)).1

/-- A question document with a single option and an out of range correct
answer index, as a model could emit it. -/
def badQuestion : Json :=
  .obj [("question", .str "q"), ("options", .arr [.str "a"]), ("correctAnswer", .num 7)]

/-- Claim C3 counterexample: quiz generation stores the extracted array
verbatim, including a question with one option and correct answer 7, so
the emitted sequence contains a question that violates the stated
validity condition. -/
theorem quiz_invalid_question_propagated_cx :
    quizQuestionsStored (.ok (.arr [badQuestion])) = .arr [badQuestion] ∧
    specValidQuestion badQuestion = false := by
  exact ⟨rfl, by rfl⟩

/-- Claim C3 amended: quiz generation performs no per question validation.
The extracted document is stored verbatim, malformed questions included;
only when the model call or extraction fails is the stored question
sequence empty. -/
theorem quiz_document_stored_verbatim :
    (∀ v : Json, quizQuestionsStored (.ok v) = v) ∧
    (∀ e : CallError, quizQuestionsStored (.error e) = .arr []) :=
  ⟨fun _ => rfl, fun _ => rfl⟩

/-- The lesson document holding only a grammar field. -/
def lessonDocGrammarOnly : Json := .obj [("grammar", .str "ok")]

/-- The fenced raw model output of the scenario in the design document. -/
def fencedGrammarRaw : String := "```json\n\x7b\"grammar\":\"ok\"\x7d\n```"

/-- A parse primitive that recognizes exactly the unfenced document of the
scenario. -/
def grammarOnlyParse : String → Option Json :=
  fun s => if s = "\x7b\"grammar\":\"ok\"\x7d" then some lessonDocGrammarOnly else none

/-- Claim C5 counterexample: extracting the fenced grammar only document
succeeds, and the handler persists it exactly as extracted, without a
vocabulary key, so validation does not fill the missing lesson keys. -/
theorem lesson_validation_not_key_filling_cx :
    callGeminiJSON true (.ok fencedGrammarRaw) grammarOnlyParse = .ok lessonDocGrammarOnly ∧
    lessonContentStored (.ok lessonDocGrammarOnly) = lessonDocGrammarOnly ∧
    jsonField (lessonContentStored (.ok lessonDocGrammarOnly)) "vocabulary" = none := by
  exact ⟨by rfl, rfl, by rfl⟩

/-- Claim C5 amended: a successfully extracted lesson document is
persisted as is, with no key filling; all five keys are guaranteed only
for the failure fallback, whose grammar value is a retry message rather
than the empty string; extracting the grammar only document persists
exactly that document. -/
theorem lesson_content_stored_as_is :
    (∀ v : Json, lessonContentStored (.ok v) = v) ∧
    (∀ e : CallError, lessonContentStored (.error e) = lessonFallbackContent) ∧
    jsonField lessonFallbackContent "vocabulary" = some (.arr []) ∧
    jsonField lessonFallbackContent "examples" = some (.arr []) ∧
    jsonField lessonFallbackContent "exercises" = some (.arr []) ∧
    jsonField lessonFallbackContent "culturalNotes" = some (.str "") ∧
    jsonField lessonFallbackContent "grammar"
      = some (.str "Lesson generated but JSON formatting failed. Please retry.") ∧
    lessonContentStored (.ok lessonDocGrammarOnly) = lessonDocGrammarOnly :=
  ⟨fun _ => rfl, fun _ => rfl, by rfl, by rfl, by rfl, by rfl, by rfl, rfl⟩

/-- Claim C4: for every target text and every outcome of the model call,
the accuracy the pipeline ends up holding lies inside the unit interval,
and equals 0.7 whenever the extracted accuracy is absent, non numeric, or
out of range. -/
theorem pron_accuracy_always_in_range (t : String) (r : Except CallError Json) :
    (0 ≤ pronAccuracy t r ∧ pronAccuracy t r ≤ 1) ∧
    (extractedAccuracyBad r = true → pronAccuracy t r = 7/10) := by
  cases r with
  | error e =>
    refine ⟨⟨by norm_num [pronAccuracy], by norm_num [pronAccuracy]⟩, fun _ => rfl⟩
  | ok v =>
    cases v with
    | obj fs =>
      obtain ⟨a, ha, h0, h1, hbad⟩ := validatePron_accuracy fs
      have hval : pronAccuracy t (.ok (.obj fs)) = a := by
        simp [pronAccuracy, ha]
      rw [hval]
      refine ⟨⟨h0, h1⟩, ?_⟩
      intro hb
      apply hbad
      simpa [extractedAccuracyBad] using hb
    | arr xs =>
      refine ⟨⟨by norm_num [pronAccuracy], by norm_num [pronAccuracy]⟩, fun _ => rfl⟩
    | null =>
      refine ⟨⟨by norm_num [pronAccuracy], by norm_num [pronAccuracy]⟩, fun _ => rfl⟩
    | bool b =>
      refine ⟨⟨by norm_num [pronAccuracy], by norm_num [pronAccuracy]⟩, fun _ => rfl⟩
    | num a =>
      refine ⟨⟨by norm_num [pronAccuracy], by norm_num [pronAccuracy]⟩, fun _ => rfl⟩
    | str s =>
      refine ⟨⟨by norm_num [pronAccuracy], by norm_num [pronAccuracy]⟩, fun _ => rfl⟩

/-- Claim C4, witness at a concrete out of range input. -/
theorem pron_accuracy_always_in_range_w :
    extractedAccuracyBad (.ok (.obj [("accuracy", .num 5)])) = true ∧
    pronAccuracy "Hola" (.ok (.obj [("accuracy", .num 5)])) = 7/10 :=
  ⟨by decide,
   (pron_accuracy_always_in_range "Hola" (.ok (.obj [("accuracy", .num 5)]))).2 (by decide)⟩

/-- Claim C6 counterexample: neither the fallback outcome nor a model
derived outcome carries a source field anywhere, so the outcome for the
target text Hola amigo after total extraction failure has no source
marker, against the first part of the claim. -/
theorem pron_outcome_no_source_marker_cx :
    jsonField (pronResponse "Hola amigo" (.error .notValidJson)) "source" = none ∧
    jsonField (pronFeedbackResult "Hola amigo" (.error .notValidJson)) "source" = none ∧
    jsonField (pronResponse "Hola amigo"
        (.ok (.obj [("accuracy", .num (1/2)), ("feedback", .str "nice"),
                    ("suggestions", .arr []), ("phonemes", .arr [])]))) "source" = none := by
  exact ⟨by rfl, by rfl, by rfl⟩

/-- Claim C6 amended: generation outcomes carry no source marker at all;
model derived and fallback responses share the same success and feedback
shape with no distinguishing field. When extraction fails entirely for the
target text Hola amigo, the feedback is the hard coded fallback, whose
accuracy is 0.7 and whose first phoneme sound is Hola, the first word of
the target text. -/
theorem pron_fallback_shape_no_marker :
    (∀ (t : String) (r : Except CallError Json),
        pronResponse t r
          = .obj [("success", .bool true), ("feedback", pronFeedbackResult t r)] ∧
        jsonField (pronResponse t r) "source" = none) ∧
    pronFeedbackResult "Hola amigo" (.error .notValidJson) = pronFallback "Hola amigo" ∧
    jsonField (pronFallback "Hola amigo") "accuracy" = some (.num (7/10)) ∧
    firstPhonemeSound (pronFallback "Hola amigo") = some "Hola" :=
  ⟨fun _ _ => ⟨rfl, rfl⟩, rfl, by rfl, by rfl⟩

/-- Claim C7: a quiz request for a lesson that already owns a stored quiz
answers 200 with that quiz, its id, lesson id and coerced question list,
enters the model pipeline for no invocation, and creates no quiz row. -/
theorem existing_quiz_returned_without_model (lessonId newQuizId : String)
    (l : LessonRec) (q : QuizRec) (rest : List QuizRec)
    (r : Except CallError Json)
    (hid : lessonId ≠ "") (hq : l.quizzes = q :: rest) :
    generateQuiz lessonId (some l) newQuizId r
      = ⟨200, true, some ⟨q.id, q.lessonId, coerceQuestions q.questions⟩, false, none⟩ := by
  unfold generateQuiz
  rw [if_neg hid]
  dsimp only
  rw [hq]

/-- Claim C7, witness at a concrete input. -/
theorem existing_quiz_returned_without_model_w :
    generateQuiz "les1"
        (some ⟨"les1", "t", "d", "BEGINNER", "lang1", none, [⟨"quiz1", "les1", .arr []⟩]⟩)
        "newq" (.error .missingApiKey)
      = ⟨200, true, some ⟨"quiz1", "les1", []⟩, false, none⟩ :=
  existing_quiz_returned_without_model "les1" "newq"
    ⟨"les1", "t", "d", "BEGINNER", "lang1", none, [⟨"quiz1", "les1", .arr []⟩]⟩
    ⟨"quiz1", "les1", .arr []⟩ [] (.error .missingApiKey) (by decide) rfl

/-- The empty trace satisfies the cascade ordering property vacuously. -/
theorem cascadeAfterPersist_nil : cascadeAfterPersist [] := by
  intro i b hi
  cases i <;> exact Option.noConfusion hi

/-- The success trace of generateLesson satisfies the cascade ordering
property: its only cascade event sits after the lesson persistence. -/
theorem cascadeAfterPersist_run (c : Json) (cok : Bool) (uid : String) :
    cascadeAfterPersist [.persistLesson c, .cascadeQuiz cok, .persistProgress uid] := by
  intro i b hi
  match i, hi with
  | 0, hi => injection hi with h; exact LEvent.noConfusion h
  | 1, _ => exact ⟨0, c, by omega, rfl⟩
  | 2, hi => injection hi with h; exact LEvent.noConfusion h
  | n+3, hi => exact Option.noConfusion hi

/-- Claim C8: in every run of generateLesson, a cascade quiz event only
appears after a lesson persistence event, and the success or failure of
the cascade step never changes the response of the parent call. -/
theorem cascade_ordered_and_swallowed (languageId level : String)
    (userId : Option String) (language : Option LanguageRec)
    (r : Except CallError Json) (cok cok' : Bool) :
    cascadeAfterPersist (generateLesson languageId level userId language r cok).events ∧
    (generateLesson languageId level userId language r cok).response
      = (generateLesson languageId level userId language r cok').response := by
  constructor
  · unfold generateLesson
    by_cases hc : languageId = "" ∨ level = ""
    · rw [if_pos hc]
      exact cascadeAfterPersist_nil
    · rw [if_neg hc]
      cases userId with
      | none => exact cascadeAfterPersist_nil
      | some uid =>
        cases language with
        | none => exact cascadeAfterPersist_nil
        | some lang => exact cascadeAfterPersist_run _ _ _
  · unfold generateLesson
    by_cases hc : languageId = "" ∨ level = ""
    · rw [if_pos hc, if_pos hc]
    · rw [if_neg hc, if_neg hc]
      cases userId with
      | none => rfl
      | some uid =>
        cases language with
        | none => rfl
        | some lang => rfl

/-- Claim C9: every generation route is mounted behind the authentication
middleware, so a request carrying no token is rejected with 401 and the
handler never runs; in particular this holds for the pronunciation
feedback route. At the handler level, missing required fields answer 400,
an unknown language answers 404, and a lesson request that somehow lacks
an attached user answers 401 from the handler itself. -/
theorem unauthenticated_request_rejected_401 :
    (∀ (α : Type) (verify : String → Option String)
        (findUser : String → Option AuthedUser) (handler : AuthedUser → α),
        runProtected none verify findUser handler
          = .rejected 401 "Access token is required") ∧
    (∀ (verify : String → Option String) (findUser : String → Option AuthedUser)
        (languageId audioData targetText level : String)
        (language : Option LanguageRec) (r : Except CallError Json),
        runProtected none verify findUser
            (fun u => getPronunciationFeedback u languageId audioData targetText level language r)
          = .rejected 401 "Access token is required") ∧
    (∀ (languageId level : String) (language : Option LanguageRec)
        (r : Except CallError Json) (cok : Bool),
        languageId ≠ "" → level ≠ "" →
        (generateLesson languageId level none language r cok).response.status = 401) ∧
    (∀ (user : AuthedUser) (audioData targetText level : String)
        (language : Option LanguageRec) (r : Except CallError Json),
        (getPronunciationFeedback user "" audioData targetText level language r).status = 400) ∧
    (∀ (user : AuthedUser) (languageId audioData targetText level : String)
        (r : Except CallError Json),
        languageId ≠ "" → audioData ≠ "" → targetText ≠ "" → level ≠ "" →
        (getPronunciationFeedback user languageId audioData targetText level none r).status
          = 404) := by
  refine ⟨fun α verify findUser handler => rfl,
          fun verify findUser languageId audioData targetText level language r => rfl,
          ?_, ?_, ?_⟩
  · intro languageId level language r cok hL hlev
    have hcond : ¬(languageId = "" ∨ level = "") := by
      rintro (h | h)
      · exact hL h
      · exact hlev h
    unfold generateLesson
    rw [if_neg hcond]
  · intro user audioData targetText level language r
    rfl
  · intro user languageId audioData targetText level r h1 h2 h3 h4
    have hcond : ¬(languageId = "" ∨ audioData = "" ∨ targetText = "" ∨ level = "") := by
      rintro (h | h | h | h)
      · exact h1 h
      · exact h2 h
      · exact h3 h
      · exact h4 h
    unfold getPronunciationFeedback
    rw [if_neg hcond]

/-- Claim C9, witness at concrete inputs. -/
theorem unauthenticated_request_rejected_401_w :
    runProtected none (fun _ => none) (fun _ => none)
        (fun u => getPronunciationFeedback u "lang1" "a" "Hola amigo" "BEGINNER" none
          (.error .notValidJson))
      = .rejected 401 "Access token is required" ∧
    (generateLesson "lang1" "BEGINNER" none none (.error .notValidJson) true).response.status
      = 401 ∧
    (getPronunciationFeedback ⟨"user1", "u@x"⟩ "lang1" "a" "Hola amigo" "BEGINNER" none
        (.error .notValidJson)).status = 404 :=
  ⟨unauthenticated_request_rejected_401.2.1 (fun _ => none) (fun _ => none)
      "lang1" "a" "Hola amigo" "BEGINNER" none (.error .notValidJson),
   unauthenticated_request_rejected_401.2.2.1 "lang1" "BEGINNER" none (.error .notValidJson)
      true (by decide) (by decide),
   unauthenticated_request_rejected_401.2.2.2.2 ⟨"user1", "u@x"⟩ "lang1" "a" "Hola amigo"
      "BEGINNER" (.error .notValidJson) (by decide) (by decide) (by decide) (by decide)⟩

/-- Claim C10: fetching an existing lesson with no stored quiz still
answers success with a quiz object whose id is the empty string and whose
question list is empty, the quiz component being present by construction;
and when the stored content column is null the payload substitutes the
schema shaped empty content. -/
theorem lesson_fetch_defaults (l : LessonRec) (hq : l.quizzes = []) :
    ∃ p : LessonPayload,
      (getLessonContent (some l)).payload = some p ∧
      (getLessonContent (some l)).status = 200 ∧
      (getLessonContent (some l)).success = true ∧
      p.quiz.id = "" ∧ p.quiz.lessonId = l.id ∧ p.quiz.questions = [] ∧
      (l.content = none → p.content = emptyLessonContent) := by
  unfold getLessonContent
  dsimp only
  refine ⟨_, rfl, rfl, rfl, ?_, rfl, ?_, ?_⟩
  · rw [hq]
    rfl
  · rw [hq]
    rfl
  · intro h
    rw [h]

/-- Claim C10, witness at a concrete input. -/
theorem lesson_fetch_defaults_w :
    ∃ p : LessonPayload,
      (getLessonContent (some ⟨"les1", "t", "d", "BEGINNER", "lang1", none, []⟩)).payload
        = some p ∧
      (getLessonContent (some ⟨"les1", "t", "d", "BEGINNER", "lang1", none, []⟩)).status
        = 200 ∧
      (getLessonContent (some ⟨"les1", "t", "d", "BEGINNER", "lang1", none, []⟩)).success
        = true ∧
      p.quiz.id = "" ∧
      p.quiz.lessonId = (⟨"les1", "t", "d", "BEGINNER", "lang1", none, []⟩ : LessonRec).id ∧
      p.quiz.questions = [] ∧
      ((⟨"les1", "t", "d", "BEGINNER", "lang1", none, []⟩ : LessonRec).content = none →
        p.content = emptyLessonContent) :=
  lesson_fetch_defaults ⟨"les1", "t", "d", "BEGINNER", "lang1", none, []⟩ rfl

end LS
